import Mathlib

/-!
# prometheus-webhook-dingtalk: configuration loading, start-up and reload

A shallow embedding of `config/config.go` (`Load`, `LoadFile`) and of
`cmd/prometheus-webhook-dingtalk/main.go` (`main` and its `/reload` handler).

Conventions.

* A Go `error` is identified with its message; a nil error is `none`.
* A Go `(*Config, error)` result is the pair `Option Config × Option Error`,
  so that "nil Config together with a non-nil error" is a statement about
  the pair and not a consequence of the result type.
* A Go `map[string]string` is either nil (`none`) or a finite table with
  pairwise distinct keys (`GoMap`).  The order in which `range` visits a map
  is not fixed by the language; it is a parameter (`RangeOrder`).
* A Go string is taken to be valid UTF-8 and is the Lean string of its code
  points.
* Calls whose code is not in these two files (`yaml.Unmarshal`,
  `ioutil.ReadFile`, `template.UpdateTemplate`, `http.ListenAndServe`,
  `DingTalkResource.Reload`) are parameters of the functions that call them;
  what `main` does to the outside world is recorded as a list of events.
-/

namespace DingTalk

/-! ## Strings -/

/-- Go error values, identified by their message. -/
abbrev Error := String

/-- Go `unicode.IsSpace`: in Latin-1 the characters tab, line feed, vertical
tab, form feed, carriage return, space, U+0085 and U+00A0; above Latin-1 the
code points with the White_Space property. -/
def isSpace (c : Char) : Bool :=
  let r := c.toNat
  if r ≤ 0xFF then
    r == 0x09 || r == 0x0A || r == 0x0B || r == 0x0C || r == 0x0D || r == 0x20
      || r == 0x85 || r == 0xA0
  else
    r == 0x1680 || (0x2000 ≤ r && r ≤ 0x200A) || r == 0x2028 || r == 0x2029
      || r == 0x202F || r == 0x205F || r == 0x3000

/-- Go `strings.TrimSpace`: the string without its leading and trailing
white space. -/
def TrimSpace (s : String) : String :=
  ⟨((s.data.dropWhile isSpace).reverse.dropWhile isSpace).reverse⟩

/-! ## The profile table -/

/-- A non-nil Go `map[string]string`: its entries, with pairwise distinct keys. -/
structure GoMap where
  entries : List (String × String)
  nodupKeys : (entries.map Prod.fst).Nodup
  deriving DecidableEq

/-- Map indexing `m[k]` with the comma-ok result. -/
def GoMap.lookup (m : GoMap) (k : String) : Option String :=
  List.lookup k m.entries

/-- The keys of a map. -/
def GoMap.keys (m : GoMap) : List String := m.entries.map Prod.fst

/-- The map `make(map[string]string)` with no entry. -/
def GoMap.empty : GoMap := ⟨[], List.nodup_nil⟩

/-- The struct `Config` of config.go; `Profiles = none` is the nil map. -/
structure Config where
  Profiles : Option GoMap
  deriving DecidableEq

/-- The type of `yaml.Unmarshal` at `*Config`: the document, the value to fill,
and the filled value together with the error. -/
abbrev Unmarshaler := String → Config → Config × Option Error

/-- An order in which `range` visits the entries of a map: each entry once. -/
abbrev RangeOrder := { f : GoMap → List (String × String) // ∀ m, (f m).Perm m.entries }

/-- The order of the entry list itself. -/
def RangeOrder.forward : RangeOrder := ⟨fun m => m.entries, fun _ => List.Perm.refl _⟩

/-- The entry list backwards. -/
def RangeOrder.backward : RangeOrder :=
  ⟨fun m => m.entries.reverse, fun m => List.reverse_perm m.entries⟩

/-! ## config.go -/

/-- The `for profile, webhookURL := range cfg.Profiles` loop of `Load`, over
the entries in the order they are visited: the error of the first `return`
taken, or `none` when the loop runs to its end. -/
def Load.loop : List (String × String) → Option Error
  | [] => none
  | (profile, webhookURL) :: rest =>
    let profile := TrimSpace profile
    let webhookURL := TrimSpace webhookURL
    if profile = "" then
      some "profile part cannot be empty"
    else if webhookURL = "" then
      some "webhook-url part cannot be emtpy"
    else
      Load.loop rest

/-- The function `Load` of config.go. -/
def Load (Unmarshal : Unmarshaler) (order : RangeOrder) (s : String) :
    Option Config × Option Error :=
  let cfg : Config := { Profiles := none }
  match Unmarshal s cfg with
  | (_, some err) => (none, some err)
  | (cfg, none) =>
    match cfg.Profiles with
    | none => (none, some "no ding profiles provided in config")
    | some m =>
      match Load.loop (order.1 m) with
      | some err => (none, some err)
      | none => (some cfg, none)

/-- The type of `ioutil.ReadFile`: the content read and the error. -/
abbrev FileReader := String → String × Option Error

/-- The function `LoadFile` of config.go. -/
def LoadFile (ReadFile : FileReader) (Unmarshal : Unmarshaler) (order : RangeOrder)
    (filename : String) : Option Config × Option Error :=
  match ReadFile filename with
  | (_, some err) => (none, some err)
  | (content, none) =>
    match Load Unmarshal order content with
    | (_, some err) => (none, some err)
    | (cfg, none) => (cfg, none)

/-! ## main.go -/

/-- The command-line flags of main.go after `kingpin.Parse`; a
`time.Duration` is its number of nanoseconds. -/
structure Flags where
  configFile : String
  listenAddress : String
  requestTimeout : Int
  templateFileName : String

/-- The `Default(...)` values of the four flags; `5s` is 5000000000 ns. -/
def Flags.defaults : Flags :=
  { configFile := "dingtalk.yml", listenAddress := ":8060",
    requestTimeout := 5000000000, templateFileName := "" }

/-- The fields of `http.Transport` that main.go sets; `Proxy` records that it
is `http.ProxyFromEnvironment`. -/
structure Transport where
  Proxy : String
  DisableKeepAlives : Bool
  deriving DecidableEq

/-- The fields of `http.Client` that main.go sets. -/
structure Client where
  Timeout : Int
  Transport : Transport
  deriving DecidableEq

/-- The fields of `webrouter.DingTalkResource` that main.go sets, the logger
apart. -/
structure DingTalkResource where
  Profiles : Option GoMap
  HttpClient : Client
  deriving DecidableEq

/-- What main.go does to the outside world, in the order it does it. -/
inductive Event where
  /-- A record `level.X(logger).Log("msg", msg, keyvals...)`. -/
  | log (level msg : String) (keyvals : List (String × String))
  /-- The record "Using following dingtalk profiles: %v" of `cfg.Profiles`. -/
  | logProfiles (profiles : Option GoMap)
  /-- The router is built: `chi.NewRouter()` and its middleware. -/
  | newRouter
  /-- A route is registered: `r.Get(pattern, ...)` or `r.Mount(pattern, ...)`. -/
  | route (pattern : String)
  /-- A call `http.ListenAndServe(address, r)`. -/
  | listen (address : String)
  /-- A call `os.Exit(code)`. -/
  | exit (code : Nat)
  /-- A call `w.Write([]byte(body))` on the response. -/
  | write (body : String)
  /-- A call `dingTalkResource.Reload(cfg)`. -/
  | reload (cfg : Option Config)
  deriving DecidableEq

/-- The collaborators of main.go whose code is outside it. -/
structure Env where
  ReadFile : FileReader
  Unmarshal : Unmarshaler
  order : RangeOrder
  /-- The error of `template.UpdateTemplate(source)`; `none` is nil. -/
  UpdateTemplate : String → Option Error
  /-- The error `http.ListenAndServe(address, r)` returns, `none` while it
  keeps serving and does not return. -/
  ListenAndServe : String → Option Error
  /-- The method `(*DingTalkResource).Reload`: the resource after the call. -/
  Reload : DingTalkResource → Option Config → DingTalkResource
  versionInfo : String

/-- How a run of `main` ends. -/
inductive Outcome where
  /-- The call `os.Exit(code)` was made. -/
  | exited (code : Nat)
  /-- The process is inside `http.ListenAndServe`, serving requests. -/
  | serving
  /-- A nil pointer was dereferenced. -/
  | panicked
  deriving DecidableEq

/-- A run of `main`: the events in order, the value of `dingTalkResource` once
it has been constructed, and the way the run ends. -/
structure Run where
  events : List Event
  resource : Option DingTalkResource
  outcome : Outcome

/-- Lines 70 to 116 of main.go: the record of the profiles, the router, the
resource, the routes, and `http.ListenAndServe`. -/
def main.serve (env : Env) (flags : Flags) (cfg : Config) : Run :=
  let dingTalkResource : DingTalkResource :=
    { Profiles := cfg.Profiles,
      HttpClient :=
        { Timeout := flags.requestTimeout,
          Transport := { Proxy := "http.ProxyFromEnvironment", DisableKeepAlives := true } } }
  let events :=
    [Event.logProfiles cfg.Profiles, Event.newRouter,
     Event.route "/health", Event.route "/reload", Event.route "/dingtalk",
     Event.log "info" "Listening on address" [("address", flags.listenAddress)],
     Event.listen flags.listenAddress]
  match env.ListenAndServe flags.listenAddress with
  | some err =>
    { events := events ++
        [Event.log "error" "Error starting HTTP server" [("err", err)], Event.exit 1],
      resource := some dingTalkResource, outcome := Outcome.exited 1 }
  | none => { events := events, resource := some dingTalkResource, outcome := Outcome.serving }

/-- Lines 62 to 68 of main.go, and what follows them: the configuration file
is loaded; an error ends the run, and `cfg.Profiles` on a nil Config would
be a nil dereference. -/
def main.loadConfig (env : Env) (flags : Flags) : Run :=
  let events := [Event.log "info" "Loading configuration file" [("file", flags.configFile)]]
  match LoadFile env.ReadFile env.Unmarshal env.order flags.configFile with
  | (_, some err) =>
    { events := events ++
        [Event.log "error" "Error reading customizable config file" [("err", err)],
         Event.exit 1],
      resource := none, outcome := Outcome.exited 1 }
  | (none, none) => { events := events, resource := none, outcome := Outcome.panicked }
  | (some cfg, none) =>
    let rest := main.serve env flags cfg
    { rest with events := events ++ rest.events }

/-- The function `main` of main.go, after the flags are parsed. -/
def main (env : Env) (flags : Flags) : Run :=
  let events :=
    [Event.log "info" "Starting prometheus-webhook-dingtalk" [("version", env.versionInfo)]]
  if flags.templateFileName ≠ "" then
    match env.ReadFile flags.templateFileName with
    | (_, some err) =>
      { events := events ++
          [Event.log "error" "Error reading customizable template file"
             [("filename", flags.templateFileName), ("err", err)],
           Event.exit 1],
        resource := none, outcome := Outcome.exited 1 }
    | (b, none) =>
      match env.UpdateTemplate b with
      | some err =>
        { events := events ++
            [Event.log "error" "Error parsing template file"
               [("filename", flags.templateFileName), ("err", err)],
             Event.exit 1],
          resource := none, outcome := Outcome.exited 1 }
      | none =>
        let rest := main.loadConfig env flags
        { rest with
          events := events ++
            [Event.log "info" "Using customized template"
               [("filename", flags.templateFileName)]] ++ rest.events }
  else
    let rest := main.loadConfig env flags
    { rest with
      events := events ++ [Event.log "info" "Using default template" []] ++ rest.events }

/-- The handler of `GET /reload` (lines 96 to 108 of main.go): its events and
the value of `dingTalkResource` when it returns. -/
def reloadHandler (env : Env) (flags : Flags) (dingTalkResource : DingTalkResource) :
    List Event × DingTalkResource :=
  let events := [Event.log "info" "Loading configuration file" [("file", flags.configFile)]]
  match LoadFile env.ReadFile env.Unmarshal env.order flags.configFile with
  | (_, some err) =>
    (events ++
      [Event.log "error" "Error reading customizable config file" [("err", err)],
       Event.write "failed"],
     dingTalkResource)
  | (cfg, none) =>
    (events ++ [Event.reload cfg, Event.write "ok"], env.Reload dingTalkResource cfg)

/-- The body of the response: what the `w.Write` calls wrote, in order. -/
def responseBody : List Event → String
  | [] => ""
  | Event.write body :: rest => body ++ responseBody rest
  | _ :: rest => responseBody rest

/-- The events that are a call of `dingTalkResource.Reload`. -/
def Event.isReload : Event → Bool
  | Event.reload _ => true
  | _ => false

/-- The events that are a call of `os.Exit`. -/
def Event.isExit : Event → Bool
  | Event.exit _ => true
  | _ => false

/-- The events that build the router or start listening. -/
def Event.isServe : Event → Bool
  | Event.newRouter => true
  | Event.route _ => true
  | Event.listen _ => true
  | _ => false

/-- The records logged at level error. -/
def Event.isErrorLog : Event → Bool
  | Event.log level _ _ => level == "error"
  | _ => false

/-! ## Sample documents and collaborators

Concrete values for the parameters, used where a statement is evaluated. -/

/-- A webhook address of the kind the README shows. -/
def sampleURL : String := "https://oapi.dingtalk.com/robot/send?access_token=xxx"

/-- The table of a document with the one profile `ops`. -/
def opsMap : GoMap := ⟨[("ops", sampleURL)], by simp⟩

/-- The table of a document whose name and address are quoted with blanks
around them. -/
def paddedMap : GoMap := ⟨[(" ops ", " https://oapi.dingtalk.com/robot/send ")], by simp⟩

/-- The table of a document whose address is the text `not a url`. -/
def proseMap : GoMap := ⟨[("ops", "not a url")], by simp⟩

/-- The table of a document with an empty name in one entry and an empty
address in another. -/
def twoFaultsMap : GoMap := ⟨[("", "x"), ("y", "")], by decide⟩

/-- The table of a document with a good entry and one with a blank address. -/
def blankURLMap : GoMap := ⟨[("ops", sampleURL), ("dev", "   ")], by decide⟩

/-- An excerpt of `yaml.Unmarshal` (gopkg.in/yaml.v2) at `*Config`: what it
does on the sample documents of this file.  The empty document leaves the
value untouched; a null `profiles` leaves the map nil; a mapping, also the
empty flow mapping, allocates the map and stores its entries; an unclosed flow
sequence is a syntax error.  A document outside the excerpt is answered with
an error, which no statement below relies on. -/
def yamlExcerpt : Unmarshaler := fun s cfg =>
  if s = "" then (cfg, none)
  else if s = "profiles:\n" then ({ Profiles := none }, none)
  else if s = "profiles: \x7b\x7d\n" then ({ Profiles := some GoMap.empty }, none)
  else if s = "profiles:\n  ops: https://oapi.dingtalk.com/robot/send?access_token=xxx\n" then
    ({ Profiles := some opsMap }, none)
  else if s = "profiles:\n  \" ops \": \" https://oapi.dingtalk.com/robot/send \"\n" then
    ({ Profiles := some paddedMap }, none)
  else if s = "profiles:\n  ops: not a url\n" then ({ Profiles := some proseMap }, none)
  else if s = "profiles:\n  \"\": x\n  y: \"\"\n" then ({ Profiles := some twoFaultsMap }, none)
  else if s = "profiles:\n  ops: https://oapi.dingtalk.com/robot/send?access_token=xxx\n  dev: \"   \"\n" then
    ({ Profiles := some blankURLMap }, none)
  else if s = "profiles: [" then
    (cfg, some "yaml: line 1: did not find expected node content")
  else (cfg, some "yaml: document outside the excerpt")

/-- A file system with a good configuration at `dingtalk.yml`, an empty
mapping at `empty.yml`, a broken one at `broken.yml`, a template at
`custom.tmpl` and nothing else. -/
def sampleFiles : FileReader := fun filename =>
  if filename = "dingtalk.yml" then
    ("profiles:\n  ops: https://oapi.dingtalk.com/robot/send?access_token=xxx\n", none)
  else if filename = "empty.yml" then ("profiles: \x7b\x7d\n", none)
  else if filename = "broken.yml" then ("profiles: [", none)
  else if filename = "custom.tmpl" then ("ding.link.title", none)
  else ("", some ("open " ++ filename ++ ": no such file or directory"))

/-- Modelled from the spec: the method `(*DingTalkResource).Reload` of the
package webrouter, whose code is not among the sources.  The spec has it
perform the replacement of the profile table: the resource afterwards holds
the profiles of the new configuration.  Used only as a sample value of
`Env.Reload`. -/
def replaceProfiles : DingTalkResource → Option Config → DingTalkResource
  | r, some cfg => { r with Profiles := cfg.Profiles }
  | r, none => r

/-- A resource as `main` builds it from `dingtalk.yml` and the default flags. -/
def sampleResource : DingTalkResource :=
  { Profiles := some opsMap,
    HttpClient :=
      { Timeout := 5000000000,
        Transport := { Proxy := "http.ProxyFromEnvironment", DisableKeepAlives := true } } }

/-- A world in which every template compiles and the server keeps serving. -/
def sampleEnv : Env :=
  { ReadFile := sampleFiles, Unmarshal := yamlExcerpt, order := RangeOrder.forward,
    UpdateTemplate := fun _ => none, ListenAndServe := fun _ => none,
    Reload := replaceProfiles, versionInfo := "(version=, branch=, revision=)" }

/-- Whether a string is an absolute URL in the words of the claim, "it has a
scheme and a host": a scheme of letters, digits, `+`, `-` and `.` that starts
with a letter, then `://`, then a host that is not empty and holds no white
space.  The repository has no such check; this is the property C7 asks of a
stored address. -/
def hasSchemeAndHost (s : String) : Bool :=
  let isSchemeChar (c : Char) : Bool := c.isAlphanum || c == '+' || c == '-' || c == '.'
  let scheme := s.data.takeWhile isSchemeChar
  let rest := s.data.dropWhile isSchemeChar
  let host := (rest.drop 3).takeWhile (fun c => c != '/' && c != '?' && c != '#')
  (match scheme with
    | [] => false
    | c :: _ => c.isAlpha)
    && rest.take 3 == [':', '/', '/'] && !host.isEmpty && !host.any isSpace

example : TrimSpace "  a b \t\n" = "a b" := by decide
example : TrimSpace "  　 " = "" := by decide
example : Load.loop [("a", "b"), (" ", "c")] = some "profile part cannot be empty" := by decide

example : hasSchemeAndHost sampleURL = true := by decide
example : hasSchemeAndHost "not a url" = false := by decide
example : (Load yamlExcerpt RangeOrder.forward "profiles: [").1 = none := by decide
example : (main sampleEnv Flags.defaults).events.length = 10 := by decide

/-! ## Lemmas on the validation loop and on `Load` -/

/-- Trimming the empty string gives the empty string. -/
theorem TrimSpace_empty : TrimSpace "" = "" := by decide

/-- A string that is not empty after trimming is not empty. -/
theorem ne_empty_of_TrimSpace_ne {s : String} (h : TrimSpace s ≠ "") : s ≠ "" := by
  intro hs
  exact h (hs ▸ TrimSpace_empty)

/-- The loop of `Load` runs to its end exactly when every entry it visits has
a name and an address that are not empty after trimming. -/
theorem Load.loop_eq_none_iff (l : List (String × String)) :
    Load.loop l = none ↔ ∀ e ∈ l, TrimSpace e.1 ≠ "" ∧ TrimSpace e.2 ≠ "" := by
  induction l with
  | nil => simp [Load.loop]
  | cons e rest ih =>
    obtain ⟨k, v⟩ := e
    by_cases hk : TrimSpace k = ""
    · simp [Load.loop, hk]
    · by_cases hv : TrimSpace v = ""
      · simp [Load.loop, hk, hv]
      · simp [Load.loop, hk, hv, ih]

/-- An error of the loop of `Load` is one of its two messages. -/
theorem Load.loop_error_text (l : List (String × String)) (err : Error)
    (h : Load.loop l = some err) :
    err = "profile part cannot be empty" ∨ err = "webhook-url part cannot be emtpy" := by
  induction l with
  | nil => simp [Load.loop] at h
  | cons e rest ih =>
    obtain ⟨k, v⟩ := e
    by_cases hk : TrimSpace k = ""
    · simp [Load.loop, hk] at h
      exact Or.inl h.symm
    · by_cases hv : TrimSpace v = ""
      · simp [Load.loop, hk, hv] at h
        exact Or.inr h.symm
      · simp [Load.loop, hk, hv] at h
        exact ih h

/-- Whether the loop of `Load` runs to its end does not depend on the order
of the entries. -/
theorem Load.loop_perm {l₁ l₂ : List (String × String)} (h : l₁.Perm l₂) :
    Load.loop l₁ = none ↔ Load.loop l₂ = none := by
  rw [Load.loop_eq_none_iff, Load.loop_eq_none_iff]
  constructor
  · intro h₁ e he
    exact h₁ e (h.mem_iff.mpr he)
  · intro h₂ e he
    exact h₂ e (h.mem_iff.mp he)

/-- The two shapes of a result of `Load`: a Config and no error, with the
document parsed into that Config and every visited entry valid; or an error
and no Config. -/
theorem Load_cases (Unmarshal : Unmarshaler) (order : RangeOrder) (s : String) :
    (∃ cfg m, Load Unmarshal order s = (some cfg, none) ∧
        Unmarshal s { Profiles := none } = (cfg, none) ∧ cfg.Profiles = some m ∧
        Load.loop (order.1 m) = none) ∨
      (∃ err, Load Unmarshal order s = (none, some err)) := by
  unfold Load
  rcases hU : Unmarshal s { Profiles := none } with ⟨cfg, uerr⟩
  cases uerr with
  | some err => exact Or.inr ⟨err, by simp [hU]⟩
  | none =>
    rcases hP : cfg.Profiles with _ | m
    · exact Or.inr ⟨"no ding profiles provided in config", by simp [hU, hP]⟩
    · rcases hL : Load.loop (order.1 m) with _ | err
      · exact Or.inl ⟨cfg, m, by simp [hU, hP, hL], rfl, hP, hL⟩
      · exact Or.inr ⟨err, by simp [hU, hP, hL]⟩

/-- The result of `Load` on a document that parses into a non-nil map. -/
theorem Load_of_parsed (Unmarshal : Unmarshaler) (order : RangeOrder) (s : String)
    (cfg : Config) (m : GoMap)
    (hparse : Unmarshal s { Profiles := none } = (cfg, none))
    (hprofiles : cfg.Profiles = some m) :
    Load Unmarshal order s =
      match Load.loop (order.1 m) with
      | some err => (none, some err)
      | none => (some cfg, none) := by
  unfold Load
  simp [hparse, hprofiles]

/-- The result of `Load` on a document that parses with a nil map: the
`profiles` key is absent or null. -/
theorem Load_nil_profiles (Unmarshal : Unmarshaler) (order : RangeOrder) (s : String)
    (cfg : Config)
    (hparse : Unmarshal s { Profiles := none } = (cfg, none))
    (hprofiles : cfg.Profiles = none) :
    Load Unmarshal order s = (none, some "no ding profiles provided in config") := by
  unfold Load
  simp [hparse, hprofiles]

/-- Indexing a map with distinct keys finds exactly its entries. -/
theorem GoMap.lookup_eq_some_iff (m : GoMap) (k v : String) :
    m.lookup k = some v ↔ (k, v) ∈ m.entries := by
  obtain ⟨entries, nodup⟩ := m
  unfold GoMap.lookup
  simp only
  induction entries with
  | nil => simp [List.lookup]
  | cons e rest ih =>
    obtain ⟨k', v'⟩ := e
    simp only [List.map_cons, List.nodup_cons, List.mem_map, not_exists, not_and] at nodup
    by_cases hk : k = k'
    · subst hk
      have hnot : (k, v) ∉ rest := fun hmem => nodup.1 (k, v) hmem rfl
      simp [List.lookup, hnot, eq_comm]
    · have hbeq : (k == k') = false := by simpa using hk
      simp [List.lookup, hbeq, hk, ih nodup.2]

/-- A successful `Load` returns the Config the document parsed into, and
every entry of its map has a name and an address that are not empty after
trimming. -/
theorem Load_success (Unmarshal : Unmarshaler) (order : RangeOrder) (s : String)
    (cfg : Config) (m : GoMap)
    (hload : Load Unmarshal order s = (some cfg, none))
    (hprofiles : cfg.Profiles = some m) :
    Unmarshal s { Profiles := none } = (cfg, none) ∧
      ∀ e ∈ m.entries, TrimSpace e.1 ≠ "" ∧ TrimSpace e.2 ≠ "" := by
  rcases Load_cases Unmarshal order s with ⟨cfg', m', h, hparse, hP, hloop⟩ | ⟨err, h⟩
  · rw [h] at hload
    have hcfg : cfg' = cfg := by simpa using hload
    subst hcfg
    have hm : m' = m := by simpa [hP] using hprofiles
    subst hm
    exact ⟨hparse, fun e he =>
      (Load.loop_eq_none_iff _).mp hloop e ((order.2 m').mem_iff.mpr he)⟩
  · rw [h] at hload
    simp at hload

/-- The result of `LoadFile` when the file is read. -/
theorem LoadFile_of_read (ReadFile : FileReader) (Unmarshal : Unmarshaler)
    (order : RangeOrder) (filename content : String)
    (hread : ReadFile filename = (content, none)) :
    LoadFile ReadFile Unmarshal order filename = Load Unmarshal order content := by
  unfold LoadFile
  rw [hread]
  rcases Load_cases Unmarshal order content with ⟨cfg, m, h, -⟩ | ⟨err, h⟩
  · simp [h]
  · simp [h]

/-- The result of `LoadFile` when the file is not read. -/
theorem LoadFile_of_read_error (ReadFile : FileReader) (Unmarshal : Unmarshaler)
    (order : RangeOrder) (filename content : String) (err : Error)
    (hread : ReadFile filename = (content, some err)) :
    LoadFile ReadFile Unmarshal order filename = (none, some err) := by
  unfold LoadFile
  rw [hread]

/-- The two shapes of a result of `LoadFile`: a Config and no error, or an
error and no Config. -/
theorem LoadFile_cases (ReadFile : FileReader) (Unmarshal : Unmarshaler)
    (order : RangeOrder) (filename : String) :
    (∃ cfg, LoadFile ReadFile Unmarshal order filename = (some cfg, none)) ∨
      (∃ err, LoadFile ReadFile Unmarshal order filename = (none, some err)) := by
  rcases hread : ReadFile filename with ⟨content, rerr⟩
  cases rerr with
  | some err => exact Or.inr ⟨err, LoadFile_of_read_error _ _ _ _ _ _ hread⟩
  | none =>
    rw [LoadFile_of_read _ _ _ _ _ hread]
    rcases Load_cases Unmarshal order content with ⟨cfg, m, h, -⟩ | ⟨err, h⟩
    · exact Or.inl ⟨cfg, h⟩
    · exact Or.inr ⟨err, h⟩

/-! ## Claims on config.go -/

/-- C1: a document that parses into a profiles map with at least one entry,
every name and every address of which is not empty after trimming, is loaded
without error, and the returned Config holds exactly the document's pairs:
indexing the returned map by a name gives that name's address unchanged, and
nothing else is in the map. -/
theorem Load_roundtrip (Unmarshal : Unmarshaler) (order : RangeOrder) (s : String)
    (cfg : Config) (m : GoMap)
    (hparse : Unmarshal s { Profiles := none } = (cfg, none))
    (hprofiles : cfg.Profiles = some m)
    (hentry : m.entries ≠ [])
    (hvalid : ∀ e ∈ m.entries, TrimSpace e.1 ≠ "" ∧ TrimSpace e.2 ≠ "") :
    ∃ cfg' m', Load Unmarshal order s = (some cfg', none) ∧ cfg'.Profiles = some m' ∧
      m'.entries ≠ [] ∧
      (∀ e ∈ m.entries, m'.lookup e.1 = some e.2) ∧
      (∀ k v, m'.lookup k = some v → (k, v) ∈ m.entries) := by
  have hloop : Load.loop (order.1 m) = none :=
    (Load.loop_eq_none_iff _).mpr fun e he => hvalid e ((order.2 m).mem_iff.mp he)
  refine ⟨cfg, m, ?_, hprofiles, hentry, ?_, ?_⟩
  · rw [Load_of_parsed Unmarshal order s cfg m hparse hprofiles, hloop]
  · intro e he
    exact (m.lookup_eq_some_iff e.1 e.2).mpr he
  · intro k v hkv
    exact (m.lookup_eq_some_iff k v).mp hkv

/-- The sample document with the profile `ops` is loaded, and `ops` is found
with its address. -/
theorem Load_roundtrip_witness :
    ∃ cfg' m', Load yamlExcerpt RangeOrder.backward
        "profiles:\n  ops: https://oapi.dingtalk.com/robot/send?access_token=xxx\n"
          = (some cfg', none) ∧ cfg'.Profiles = some m' ∧
      m'.entries ≠ [] ∧
      (∀ e ∈ opsMap.entries, m'.lookup e.1 = some e.2) ∧
      (∀ k v, m'.lookup k = some v → (k, v) ∈ opsMap.entries) :=
  Load_roundtrip yamlExcerpt RangeOrder.backward
    "profiles:\n  ops: https://oapi.dingtalk.com/robot/send?access_token=xxx\n"
    { Profiles := some opsMap } opsMap (by decide) rfl (by decide) (by decide)

/-- C2: a document whose profiles map has an entry with a name or an address
that is empty after trimming is refused, whatever the other entries are and
in whatever order they are visited: the error is not nil and the Config is
nil. -/
theorem Load_rejects_empty_part (Unmarshal : Unmarshaler) (order : RangeOrder) (s : String)
    (cfg : Config) (uerr : Option Error) (m : GoMap)
    (hparse : Unmarshal s { Profiles := none } = (cfg, uerr))
    (hprofiles : cfg.Profiles = some m)
    (hbad : ∃ e ∈ m.entries, TrimSpace e.1 = "" ∨ TrimSpace e.2 = "") :
    (Load Unmarshal order s).1 = none ∧ (Load Unmarshal order s).2 ≠ none := by
  cases uerr with
  | some err =>
    unfold Load
    simp [hparse]
  | none =>
    have hloop : Load.loop (order.1 m) ≠ none := by
      intro hnone
      obtain ⟨e, he, hemp⟩ := hbad
      have := (Load.loop_eq_none_iff _).mp hnone e ((order.2 m).mem_iff.mpr he)
      rcases hemp with h | h
      · exact this.1 h
      · exact this.2 h
    rw [Load_of_parsed Unmarshal order s cfg m hparse hprofiles]
    rcases hL : Load.loop (order.1 m) with _ | err
    · exact absurd hL hloop
    · simp

/-- The sample document with a good entry and an entry with a blank address
is refused. -/
theorem Load_rejects_empty_part_witness :
    (Load yamlExcerpt RangeOrder.forward
        "profiles:\n  ops: https://oapi.dingtalk.com/robot/send?access_token=xxx\n  dev: \"   \"\n").1
        = none ∧
      (Load yamlExcerpt RangeOrder.forward
        "profiles:\n  ops: https://oapi.dingtalk.com/robot/send?access_token=xxx\n  dev: \"   \"\n").2
        ≠ none :=
  Load_rejects_empty_part yamlExcerpt RangeOrder.forward
    "profiles:\n  ops: https://oapi.dingtalk.com/robot/send?access_token=xxx\n  dev: \"   \"\n"
    { Profiles := some blankURLMap } none blankURLMap (by decide) rfl
    ⟨("dev", "   "), by decide, Or.inr (by decide)⟩

/-- C3, what the code does: a document that parses into a map that is not nil
and has no entry, as the empty mapping after `profiles:` does, is loaded
without error; only a nil map is refused. -/
theorem Load_accepts_empty_mapping (Unmarshal : Unmarshaler) (order : RangeOrder)
    (s : String) (cfg : Config) (m : GoMap)
    (hparse : Unmarshal s { Profiles := none } = (cfg, none))
    (hprofiles : cfg.Profiles = some m)
    (hempty : m.entries = []) :
    Load Unmarshal order s = (some cfg, none) := by
  have hloop : Load.loop (order.1 m) = none := by
    have hperm := order.2 m
    rw [hempty] at hperm
    rw [List.perm_nil.mp hperm]
    rfl
  rw [Load_of_parsed Unmarshal order s cfg m hparse hprofiles, hloop]

/-- The document with the empty mapping after `profiles:` is loaded without
error, with a table of zero profiles. -/
theorem Load_accepts_empty_mapping_witness :
    Load yamlExcerpt RangeOrder.forward "profiles: \x7b\x7d\n"
      = (some { Profiles := some GoMap.empty }, none) :=
  Load_accepts_empty_mapping yamlExcerpt RangeOrder.forward "profiles: \x7b\x7d\n"
    { Profiles := some GoMap.empty } GoMap.empty (by decide) rfl rfl

/-- C6 as stated fails: the document whose name and address are quoted with
blanks around them is loaded, and the returned map holds them with the
blanks, which differ from their trimmed forms. -/
theorem Load_keeps_blanks :
    Load yamlExcerpt RangeOrder.forward
        "profiles:\n  \" ops \": \" https://oapi.dingtalk.com/robot/send \"\n"
        = (some { Profiles := some paddedMap }, none) ∧
      paddedMap.lookup " ops " = some " https://oapi.dingtalk.com/robot/send " ∧
      TrimSpace " ops " ≠ " ops " ∧
      TrimSpace " https://oapi.dingtalk.com/robot/send "
        ≠ " https://oapi.dingtalk.com/robot/send " := by
  decide

/-- C6, amended: when `Load` succeeds, the returned Config is the one the
document parsed into, unchanged, and every name and every address in its map
is not empty and is not empty after trimming. -/
theorem Load_entries_nonempty (Unmarshal : Unmarshaler) (order : RangeOrder) (s : String)
    (cfg : Config) (m : GoMap)
    (hload : Load Unmarshal order s = (some cfg, none))
    (hprofiles : cfg.Profiles = some m) :
    Unmarshal s { Profiles := none } = (cfg, none) ∧
      ∀ e ∈ m.entries,
        e.1 ≠ "" ∧ TrimSpace e.1 ≠ "" ∧ e.2 ≠ "" ∧ TrimSpace e.2 ≠ "" := by
  rcases Load_cases Unmarshal order s with ⟨cfg', m', h, hparse, hP, hloop⟩ | ⟨err, h⟩
  · rw [h] at hload
    have hcfg : cfg' = cfg := by simpa using hload
    subst hcfg
    have hm : m' = m := by simpa [hP] using hprofiles
    subst hm
    refine ⟨hparse, fun e he => ?_⟩
    have := (Load.loop_eq_none_iff _).mp hloop e ((order.2 m').mem_iff.mpr he)
    exact ⟨ne_empty_of_TrimSpace_ne this.1, this.1, ne_empty_of_TrimSpace_ne this.2, this.2⟩
  · rw [h] at hload
    simp at hload

/-- The padded sample document is loaded with every name and address not
empty after trimming. -/
theorem Load_entries_nonempty_witness :
    yamlExcerpt "profiles:\n  \" ops \": \" https://oapi.dingtalk.com/robot/send \"\n"
        { Profiles := none } = ({ Profiles := some paddedMap }, none) ∧
      ∀ e ∈ paddedMap.entries,
        e.1 ≠ "" ∧ TrimSpace e.1 ≠ "" ∧ e.2 ≠ "" ∧ TrimSpace e.2 ≠ "" :=
  Load_entries_nonempty yamlExcerpt RangeOrder.forward
    "profiles:\n  \" ops \": \" https://oapi.dingtalk.com/robot/send \"\n"
    { Profiles := some paddedMap } paddedMap (by decide) rfl

/-- C7 as stated fails: the document whose address is the text `not a url`
is loaded, and the returned map holds that text, which has neither a scheme
nor a host. -/
theorem Load_accepts_prose_address :
    Load yamlExcerpt RangeOrder.forward "profiles:\n  ops: not a url\n"
        = (some { Profiles := some proseMap }, none) ∧
      proseMap.lookup "ops" = some "not a url" ∧
      hasSchemeAndHost "not a url" = false := by
  decide

/-- C7, amended: when `Load` succeeds, every address found in the returned
map is not empty after trimming; nothing more is checked of an address. -/
theorem Load_address_nonempty (Unmarshal : Unmarshaler) (order : RangeOrder) (s : String)
    (cfg : Config) (m : GoMap)
    (hload : Load Unmarshal order s = (some cfg, none))
    (hprofiles : cfg.Profiles = some m) :
    ∀ name webhookURL, m.lookup name = some webhookURL → TrimSpace webhookURL ≠ "" := by
  intro name webhookURL hfound
  have hmem := (m.lookup_eq_some_iff name webhookURL).mp hfound
  exact ((Load_success Unmarshal order s cfg m hload hprofiles).2 _ hmem).2

/-- The address `not a url` of the sample document, found under `ops` after a
successful load, is not empty after trimming. -/
theorem Load_address_nonempty_witness :
    Load yamlExcerpt RangeOrder.forward "profiles:\n  ops: not a url\n"
        = (some { Profiles := some proseMap }, none) ∧
      proseMap.lookup "ops" = some "not a url" ∧ TrimSpace "not a url" ≠ "" :=
  ⟨by decide, by decide,
    Load_address_nonempty yamlExcerpt RangeOrder.forward "profiles:\n  ops: not a url\n"
      { Profiles := some proseMap } proseMap (by decide) rfl "ops" "not a url" (by decide)⟩

/-- C9: `LoadFile` is `Load` on the content of the file.  When the file is
read, `LoadFile` returns the pair `Load` returns on its content; when it is
not, `LoadFile` returns a nil Config and the error of the read, whatever
`Load` would do. -/
theorem LoadFile_eq_Load (ReadFile : FileReader) (filename : String) :
    (∀ (Unmarshal : Unmarshaler) (order : RangeOrder) (content : String),
        ReadFile filename = (content, none) →
        LoadFile ReadFile Unmarshal order filename = Load Unmarshal order content) ∧
      (∀ (content : String) (err : Error), ReadFile filename = (content, some err) →
        ∀ (Unmarshal : Unmarshaler) (order : RangeOrder),
          LoadFile ReadFile Unmarshal order filename = (none, some err)) :=
  ⟨fun Unmarshal order content hread =>
      LoadFile_of_read ReadFile Unmarshal order filename content hread,
    fun content err hread Unmarshal order =>
      LoadFile_of_read_error ReadFile Unmarshal order filename content err hread⟩

/-- On the sample files, `LoadFile` of `dingtalk.yml` is `Load` of its
content, and `LoadFile` of a missing file is the error of the read. -/
theorem LoadFile_eq_Load_witness :
    LoadFile sampleFiles yamlExcerpt RangeOrder.forward "dingtalk.yml"
        = Load yamlExcerpt RangeOrder.forward
            "profiles:\n  ops: https://oapi.dingtalk.com/robot/send?access_token=xxx\n" ∧
      LoadFile sampleFiles yamlExcerpt RangeOrder.forward "missing.yml"
        = (none, some "open missing.yml: no such file or directory") :=
  ⟨(LoadFile_eq_Load sampleFiles "dingtalk.yml").1 yamlExcerpt RangeOrder.forward _ (by decide),
    (LoadFile_eq_Load sampleFiles "missing.yml").2 "" _ (by decide) yamlExcerpt
      RangeOrder.forward⟩

/-- C10: the outcome of `Load` does not depend on the order in which the map
is visited.  Under any two orders `Load` succeeds under one exactly when it
succeeds under the other, the returned Config is the same, and on success so
is the whole result; when the two results differ, they differ in the text of
the error, which is then one of the two messages of the loop under each
order. -/
theorem Load_order_independent (Unmarshal : Unmarshaler) (order₁ order₂ : RangeOrder)
    (s : String) :
    ((Load Unmarshal order₁ s).2 = none ↔ (Load Unmarshal order₂ s).2 = none) ∧
      (Load Unmarshal order₁ s).1 = (Load Unmarshal order₂ s).1 ∧
      ((Load Unmarshal order₁ s).2 = none →
        Load Unmarshal order₁ s = Load Unmarshal order₂ s) ∧
      (Load Unmarshal order₁ s ≠ Load Unmarshal order₂ s →
        ∃ err₁ err₂, Load Unmarshal order₁ s = (none, some err₁) ∧
          Load Unmarshal order₂ s = (none, some err₂) ∧ err₁ ≠ err₂ ∧
          (err₁ = "profile part cannot be empty" ∨
            err₁ = "webhook-url part cannot be emtpy") ∧
          (err₂ = "profile part cannot be empty" ∨
            err₂ = "webhook-url part cannot be emtpy")) := by
  rcases hU : Unmarshal s { Profiles := none } with ⟨cfg, uerr⟩
  cases uerr with
  | some err =>
    have h : ∀ order : RangeOrder, Load Unmarshal order s = (none, some err) := by
      intro order
      unfold Load
      simp [hU]
    simp [h order₁, h order₂]
  | none =>
    rcases hP : cfg.Profiles with _ | m
    · simp [Load_nil_profiles Unmarshal _ s cfg hU hP]
    · have h₁ := Load_of_parsed Unmarshal order₁ s cfg m hU hP
      have h₂ := Load_of_parsed Unmarshal order₂ s cfg m hU hP
      have hperm : (order₁.1 m).Perm (order₂.1 m) := (order₁.2 m).trans (order₂.2 m).symm
      have hiff := Load.loop_perm hperm
      rcases hL₁ : Load.loop (order₁.1 m) with _ | err₁
      · have hL₂ := hiff.mp hL₁
        rw [hL₁] at h₁
        rw [hL₂] at h₂
        simp [h₁, h₂]
      · rcases hL₂ : Load.loop (order₂.1 m) with _ | err₂
        · rw [hiff.mpr hL₂] at hL₁
          simp at hL₁
        · have t₁ := Load.loop_error_text _ _ hL₁
          have t₂ := Load.loop_error_text _ _ hL₂
          rw [hL₁] at h₁
          rw [hL₂] at h₂
          simp only [h₁, h₂]
          refine ⟨by simp, trivial, by simp, ?_⟩
          intro hne
          refine ⟨err₁, err₂, rfl, rfl, ?_, t₁, t₂⟩
          intro heq
          exact hne (by rw [heq])

/-- On the sample document with an empty name in one entry and an empty
address in another, `Load` fails under both orders with a nil Config, and
the two orders give the two different messages. -/
theorem Load_order_independent_witness :
    (((Load yamlExcerpt RangeOrder.forward "profiles:\n  \"\": x\n  y: \"\"\n").2 = none ↔
        (Load yamlExcerpt RangeOrder.backward "profiles:\n  \"\": x\n  y: \"\"\n").2 = none) ∧
      (Load yamlExcerpt RangeOrder.forward "profiles:\n  \"\": x\n  y: \"\"\n").1
        = (Load yamlExcerpt RangeOrder.backward "profiles:\n  \"\": x\n  y: \"\"\n").1) ∧
      Load yamlExcerpt RangeOrder.forward "profiles:\n  \"\": x\n  y: \"\"\n"
        = (none, some "profile part cannot be empty") ∧
      Load yamlExcerpt RangeOrder.backward "profiles:\n  \"\": x\n  y: \"\"\n"
        = (none, some "webhook-url part cannot be emtpy") :=
  ⟨⟨(Load_order_independent yamlExcerpt RangeOrder.forward RangeOrder.backward
        "profiles:\n  \"\": x\n  y: \"\"\n").1,
      (Load_order_independent yamlExcerpt RangeOrder.forward RangeOrder.backward
        "profiles:\n  \"\": x\n  y: \"\"\n").2.1⟩,
    by decide, by decide⟩

/-- The resource that `main` constructs from a loaded Config. -/
theorem main.serve_resource (env : Env) (flags : Flags) (cfg : Config) :
    (main.serve env flags cfg).resource =
      some { Profiles := cfg.Profiles,
             HttpClient :=
               { Timeout := flags.requestTimeout,
                 Transport :=
                   { Proxy := "http.ProxyFromEnvironment", DisableKeepAlives := true } } } := by
  unfold main.serve
  cases env.ListenAndServe flags.listenAddress <;> rfl

/-- Once the Config is loaded, `main` calls `http.ListenAndServe`, and then
serves or exits with status 1. -/
theorem main.serve_listen (env : Env) (flags : Flags) (cfg : Config) :
    Event.listen flags.listenAddress ∈ (main.serve env flags cfg).events ∧
      ((main.serve env flags cfg).outcome = Outcome.serving ∨
        (main.serve env flags cfg).outcome = Outcome.exited 1) := by
  unfold main.serve
  cases env.ListenAndServe flags.listenAddress <;> simp

/-- A resource exists only after the configuration stage of `main`. -/
theorem main_resource (env : Env) (flags : Flags) :
    (main env flags).resource = (main.loadConfig env flags).resource ∨
      (main env flags).resource = none := by
  unfold main
  split
  · split
    · exact Or.inr rfl
    · split
      · exact Or.inr rfl
      · exact Or.inl rfl
  · exact Or.inl rfl

/-- The resource of the configuration stage of `main`, when there is one,
holds the profiles of the Config that `LoadFile` returned and the client
built from the flags. -/
theorem main.loadConfig_resource (env : Env) (flags : Flags) (r : DingTalkResource)
    (h : (main.loadConfig env flags).resource = some r) :
    ∃ cfg, LoadFile env.ReadFile env.Unmarshal env.order flags.configFile = (some cfg, none) ∧
      r = { Profiles := cfg.Profiles,
            HttpClient :=
              { Timeout := flags.requestTimeout,
                Transport :=
                  { Proxy := "http.ProxyFromEnvironment", DisableKeepAlives := true } } } := by
  rcases LoadFile_cases env.ReadFile env.Unmarshal env.order flags.configFile with
    ⟨cfg, hC⟩ | ⟨err, hC⟩
  · refine ⟨cfg, hC, ?_⟩
    have : (main.loadConfig env flags).resource = (main.serve env flags cfg).resource := by
      simp [main.loadConfig, hC]
    rw [this, main.serve_resource] at h
    exact (Option.some.inj h).symm
  · have : (main.loadConfig env flags).resource = none := by
      simp [main.loadConfig, hC]
    rw [this] at h
    simp at h

/-! ## Claims on main.go -/

/-- C4: in the handler of `/reload`, `dingTalkResource.Reload` is called
exactly when `config.LoadFile` succeeds, once, with the Config `LoadFile`
returned, and the body of the response is then `ok`; when `LoadFile` fails
the handler logs the error, writes the body `failed`, leaves the resource as
it was, and in neither case calls `os.Exit`. -/
theorem reloadHandler_spec (env : Env) (flags : Flags) (resource : DingTalkResource) :
    (∀ c, Event.reload c ∈ (reloadHandler env flags resource).1 ↔
        (LoadFile env.ReadFile env.Unmarshal env.order flags.configFile).2 = none ∧
          c = (LoadFile env.ReadFile env.Unmarshal env.order flags.configFile).1) ∧
      (∀ cfg, LoadFile env.ReadFile env.Unmarshal env.order flags.configFile = (cfg, none) →
        (∃ c, cfg = some c) ∧
        (reloadHandler env flags resource).1 =
          [Event.log "info" "Loading configuration file" [("file", flags.configFile)],
           Event.reload cfg, Event.write "ok"] ∧
        (reloadHandler env flags resource).2 = env.Reload resource cfg ∧
        responseBody (reloadHandler env flags resource).1 = "ok") ∧
      (∀ cfg err,
        LoadFile env.ReadFile env.Unmarshal env.order flags.configFile = (cfg, some err) →
        (reloadHandler env flags resource).1 =
          [Event.log "info" "Loading configuration file" [("file", flags.configFile)],
           Event.log "error" "Error reading customizable config file" [("err", err)],
           Event.write "failed"] ∧
        (reloadHandler env flags resource).2 = resource ∧
        responseBody (reloadHandler env flags resource).1 = "failed") ∧
      (∀ e ∈ (reloadHandler env flags resource).1, e.isExit = false) := by
  rcases LoadFile_cases env.ReadFile env.Unmarshal env.order flags.configFile with
    ⟨cfg, h⟩ | ⟨err, h⟩
  · have hrun : reloadHandler env flags resource =
        ([Event.log "info" "Loading configuration file" [("file", flags.configFile)],
          Event.reload (some cfg), Event.write "ok"], env.Reload resource (some cfg)) := by
      simp [reloadHandler, h]
    rw [hrun, h]
    refine ⟨fun c => ?_, fun cfg' hcfg => ?_, fun cfg' err hcfg => ?_, fun e he => ?_⟩
    · simp [eq_comm]
    · have hc : some cfg = cfg' := by simpa using hcfg
      subst hc
      exact ⟨⟨cfg, rfl⟩, rfl, rfl, rfl⟩
    · simp at hcfg
    · simp at he
      rcases he with rfl | rfl | rfl <;> rfl
  · have hrun : reloadHandler env flags resource =
        ([Event.log "info" "Loading configuration file" [("file", flags.configFile)],
          Event.log "error" "Error reading customizable config file" [("err", err)],
          Event.write "failed"], resource) := by
      simp [reloadHandler, h]
    rw [hrun, h]
    refine ⟨fun c => ?_, fun cfg' hcfg => ?_, fun cfg' err' hcfg => ?_, fun e he => ?_⟩
    · simp
    · simp at hcfg
    · have hc : none = cfg' ∧ err = err' := by simpa using hcfg
      obtain ⟨-, hc⟩ := hc
      subst hc
      exact ⟨rfl, rfl, rfl⟩
    · simp at he
      rcases he with rfl | rfl | rfl <;> rfl

/-- In the sample world, a reload from the good file calls `Reload` with the
loaded Config and answers `ok`; a reload from the broken file answers
`failed` and leaves the resource as it was. -/
theorem reloadHandler_spec_witness :
    (reloadHandler sampleEnv Flags.defaults sampleResource).1 =
        [Event.log "info" "Loading configuration file" [("file", "dingtalk.yml")],
         Event.reload (some { Profiles := some opsMap }), Event.write "ok"] ∧
      ((reloadHandler sampleEnv { Flags.defaults with configFile := "broken.yml" }
          sampleResource).2 = sampleResource ∧
        responseBody (reloadHandler sampleEnv { Flags.defaults with configFile := "broken.yml" }
          sampleResource).1 = "failed") :=
  ⟨((reloadHandler_spec sampleEnv Flags.defaults sampleResource).2.1
      (some { Profiles := some opsMap }) (by decide)).2.1,
    (((reloadHandler_spec sampleEnv { Flags.defaults with configFile := "broken.yml" }
      sampleResource).2.2.1
      none "yaml: line 1: did not find expected node content" (by decide)).2)⟩

/-- C5: start-up fails fast.  When a template file is named and cannot be
read, or a template file is named and `template.UpdateTemplate` returns an
error, or `config.LoadFile` of the configuration file returns an error,
`main` logs an error and calls `os.Exit(1)` as its last act, with no router
built, no route registered, no listening and no resource.  Otherwise `main`
builds the router and calls `http.ListenAndServe` with a resource whose
profile table is that of the loaded Config. -/
theorem main_fail_fast (env : Env) (flags : Flags) :
    (((flags.templateFileName ≠ "" ∧ (env.ReadFile flags.templateFileName).2 ≠ none) ∨
        (flags.templateFileName ≠ "" ∧
          env.UpdateTemplate (env.ReadFile flags.templateFileName).1 ≠ none) ∨
        (LoadFile env.ReadFile env.Unmarshal env.order flags.configFile).2 ≠ none) →
      (main env flags).outcome = Outcome.exited 1 ∧
      (main env flags).resource = none ∧
      (∀ e ∈ (main env flags).events, e.isServe = false) ∧
      (∃ e ∈ (main env flags).events, e.isErrorLog = true) ∧
      (main env flags).events.getLast? = some (Event.exit 1)) ∧
    (¬ ((flags.templateFileName ≠ "" ∧ (env.ReadFile flags.templateFileName).2 ≠ none) ∨
        (flags.templateFileName ≠ "" ∧
          env.UpdateTemplate (env.ReadFile flags.templateFileName).1 ≠ none) ∨
        (LoadFile env.ReadFile env.Unmarshal env.order flags.configFile).2 ≠ none) →
      ∃ cfg r,
        LoadFile env.ReadFile env.Unmarshal env.order flags.configFile = (some cfg, none) ∧
        (main env flags).resource = some r ∧ r.Profiles = cfg.Profiles ∧
        Event.newRouter ∈ (main env flags).events ∧
        Event.listen flags.listenAddress ∈ (main env flags).events ∧
        ((main env flags).outcome = Outcome.serving ∨
          (main env flags).outcome = Outcome.exited 1)) := by
  rcases hT : env.ReadFile flags.templateFileName with ⟨b, rerr⟩
  rcases LoadFile_cases env.ReadFile env.Unmarshal env.order flags.configFile with
    ⟨cfg, hC⟩ | ⟨err, hC⟩ <;>
  by_cases htf : flags.templateFileName = "" <;>
  cases rerr <;>
  cases hU : env.UpdateTemplate b <;>
  cases hL : env.ListenAndServe flags.listenAddress <;>
  simp [main, main.loadConfig, main.serve, hT, hC, htf, hU, hL, Event.isServe,
    Event.isErrorLog]

/-- In the sample world, start-up with the broken configuration file exits
with status 1 and no resource, and start-up with the default flags serves
with the profiles of `dingtalk.yml`. -/
theorem main_fail_fast_witness :
    ((main sampleEnv { Flags.defaults with configFile := "broken.yml" }).outcome
        = Outcome.exited 1 ∧
      (main sampleEnv { Flags.defaults with configFile := "broken.yml" }).resource = none) ∧
    (∃ cfg r,
      LoadFile sampleFiles yamlExcerpt RangeOrder.forward "dingtalk.yml" = (some cfg, none) ∧
      (main sampleEnv Flags.defaults).resource = some r ∧ r.Profiles = cfg.Profiles ∧
      Event.newRouter ∈ (main sampleEnv Flags.defaults).events ∧
      Event.listen ":8060" ∈ (main sampleEnv Flags.defaults).events ∧
      ((main sampleEnv Flags.defaults).outcome = Outcome.serving ∨
        (main sampleEnv Flags.defaults).outcome = Outcome.exited 1)) :=
  ⟨⟨((main_fail_fast sampleEnv { Flags.defaults with configFile := "broken.yml" }).1
        (Or.inr (Or.inr (by decide)))).1,
      ((main_fail_fast sampleEnv { Flags.defaults with configFile := "broken.yml" }).1
        (Or.inr (Or.inr (by decide)))).2.1⟩,
    (main_fail_fast sampleEnv Flags.defaults).2 (by decide)⟩

/-- C8 as stated fails: with `--ding.timeout=0s`, a value the flag accepts,
`main` reaches the serving stage with a client whose Timeout is zero, which
is not strictly positive. -/
theorem main_zero_timeout :
    (main sampleEnv { Flags.defaults with requestTimeout := 0 }).outcome = Outcome.serving ∧
      ∃ r, (main sampleEnv { Flags.defaults with requestTimeout := 0 }).resource = some r ∧
        r.HttpClient.Timeout = 0 ∧ ¬ (0 < r.HttpClient.Timeout) :=
  ⟨by decide,
    { sampleResource with HttpClient := { sampleResource.HttpClient with Timeout := 0 } },
    by decide, rfl, by decide⟩

/-- C8, amended: the client of the resource that `main` constructs never
reuses connections and has the timeout of the flag.  Its Timeout equals the
value of `ding.timeout`, its transport has DisableKeepAlives set, and the
Timeout is strictly positive exactly when the value of the flag is, as the
default of 5s is. -/
theorem main_client (env : Env) (flags : Flags) (r : DingTalkResource)
    (h : (main env flags).resource = some r) :
    r.HttpClient.Timeout = flags.requestTimeout ∧
      r.HttpClient.Transport.DisableKeepAlives = true ∧
      (0 < r.HttpClient.Timeout ↔ 0 < flags.requestTimeout) ∧
      Flags.defaults.requestTimeout = 5000000000 ∧ 0 < Flags.defaults.requestTimeout := by
  have hr : (main.loadConfig env flags).resource = some r := by
    rcases main_resource env flags with h' | h'
    · rw [← h', h]
    · rw [h'] at h
      simp at h
  obtain ⟨cfg, -, rfl⟩ := main.loadConfig_resource env flags r hr
  exact ⟨rfl, rfl, Iff.rfl, rfl, by decide⟩

/-- In the sample world with the default flags, the client has a Timeout of
5s and does not keep connections alive. -/
theorem main_client_witness :
    sampleResource.HttpClient.Timeout = Flags.defaults.requestTimeout ∧
      sampleResource.HttpClient.Transport.DisableKeepAlives = true ∧
      (0 < sampleResource.HttpClient.Timeout ↔ 0 < Flags.defaults.requestTimeout) ∧
      Flags.defaults.requestTimeout = 5000000000 ∧ 0 < Flags.defaults.requestTimeout :=
  main_client sampleEnv Flags.defaults sampleResource (by decide)

end DingTalk
